import Mathlib

/-!
Verification of the deterministic core of the Job-flow application:
the session/result data model (src/types.ts), the ranking-and-recede
policy (sortedJobs in src/components/Dashboard.tsx), the interaction
recorder and history operations (markJobInteraction and updateHistory in
src/App.tsx), the session-creation path (handleSearch in
src/components/Dashboard.tsx together with discoverJobs and
validateJobUrl in src/services/geminiService.ts), and the profile store
(src/unnamed/part_000, the storage service).

Machine integers of the source (epoch-millisecond timestamps, scores)
are modelled as Nat and Int; JavaScript string equality with === is
String equality; optional fields are Option.
-/

/-- One discovered job posting plus its interaction metadata.
Field names follow the interface JobResult in src/types.ts; scores are
numbers from the external model, carried as Int. -/
structure JobResult where
  id : String
  company : String
  role : String
  country : String
  url : String
  matchScore : Int
  hiringProbability : Int
  jd : String
  clicked : Bool
  lastInteractedAt : Option Nat
  timestamp : Nat
  isValidated : Option Bool
  deriving Repr, DecidableEq

/-- One discovery request and its stored results.
Follows the interface SearchSession in src/types.ts. -/
structure SearchSession where
  id : String
  timestamp : Nat
  countries : List String
  targetTitles : List String
  results : List JobResult
  deriving Repr, DecidableEq

/-- The per-user durable record. Follows the interface UserProfile in
src/types.ts. -/
structure UserProfile where
  uid : String
  email : Option String
  displayName : Option String
  photoURL : Option String
  resumeText : Option String
  resumeUrl : Option String
  resumeSourceType : Option String
  history : List SearchSession
  suggestedCountries : Option (List String)
  targetTitles : Option (List String)
  deriving Repr, DecidableEq

/-- Embedding of updateHistory in src/App.tsx: the new session is
consed in front of the existing history. -/
def updateHistory (profile : UserProfile) (session : SearchSession) : UserProfile :=
  { profile with history := session :: profile.history }

/-- Embedding of markJobInteraction in src/App.tsx. The source reads
Date.now into a local variable now, which is passed here as the
argument now. Every session whose id matches has every result whose id
matches rewritten with clicked set to true and lastInteractedAt set to
now; everything else is mapped to itself. -/
def markJobInteraction (profile : UserProfile) (sessionId jobId : String) (now : Nat) :
    UserProfile :=
  { profile with
    history := profile.history.map fun session =>
      if session.id = sessionId then
        { session with
          results := session.results.map fun job =>
            if job.id = jobId then
              { job with clicked := true, lastInteractedAt := some now }
            else job }
      else session }

/-- The comparator the source passes to Array.prototype.sort inside
sortedJobs (src/components/Dashboard.tsx): records with equal clicked
compare by descending hiringProbability via the subtraction
b.hiringProbability - a.hiringProbability, and a clicked record compares
after an unclicked one. -/
def jobCompare (a b : JobResult) : Int :=
  if a.clicked = b.clicked then b.hiringProbability - a.hiringProbability
  else if a.clicked then 1 else -1

/-- Embedding of sortedJobs in src/components/Dashboard.tsx.
Array.prototype.sort is required by the language specification to be a
stable sort consistent with the comparator, so it is embedded as a
stable merge sort with the relation jobCompare a b LE 0. -/
def sortedJobs (results : List JobResult) : List JobResult :=
  results.mergeSort fun a b => decide (jobCompare a b ≤ 0)

/-- The boolean order induced by the comparator. -/
def jobLE (a b : JobResult) : Bool :=
  decide (jobCompare a b ≤ 0)

lemma sortedJobs_eq_mergeSort (l : List JobResult) :
    sortedJobs l = l.mergeSort jobLE := rfl

lemma jobLE_total (a b : JobResult) : jobLE a b || jobLE b a := by
  simp only [jobLE, jobCompare]
  rcases Bool.eq_false_or_eq_true a.clicked with ha | ha <;>
    rcases Bool.eq_false_or_eq_true b.clicked with hb | hb <;>
      simp [ha, hb] <;> omega

lemma jobLE_trans (a b c : JobResult) (hab : jobLE a b) (hbc : jobLE b c) : jobLE a c := by
  simp only [jobLE, jobCompare] at hab hbc ⊢
  rcases Bool.eq_false_or_eq_true a.clicked with ha | ha <;>
    rcases Bool.eq_false_or_eq_true b.clicked with hb | hb <;>
      rcases Bool.eq_false_or_eq_true c.clicked with hc | hc <;>
        simp_all <;> omega

/-- The display-order relation the specification describes: an
unclicked record never follows a clicked one, and within a group of
equal clicked the hiring probabilities do not increase. -/
def displayLE (a b : JobResult) : Prop :=
  (a.clicked = false ∨ b.clicked = true) ∧
    (a.clicked = b.clicked → b.hiringProbability ≤ a.hiringProbability)

lemma jobLE_implies_displayLE (a b : JobResult) (h : jobLE a b) : displayLE a b := by
  simp only [jobLE, jobCompare] at h
  constructor
  · rcases Bool.eq_false_or_eq_true a.clicked with ha | ha <;>
      rcases Bool.eq_false_or_eq_true b.clicked with hb | hb <;> simp_all
  · intro hcl
    simp [hcl] at h
    omega

lemma jobLE_of_tie (a b : JobResult) (h1 : a.clicked = b.clicked)
    (h2 : a.hiringProbability = b.hiringProbability) : jobLE a b := by
  simp [jobLE, jobCompare, h1, h2]

/-- C1: the ranking and recede policy sortedJobs returns a permutation
of its input in which every unclicked record precedes every clicked
one, within each clicked group hiring probabilities never increase,
two records with equal clicked and equal hiringProbability keep their
relative input order (stability, phrased as preservation of two-element
sublists), the empty input yields the empty output, and a singleton is
unchanged. -/
theorem sortedJobs_spec (l : List JobResult) :
    (sortedJobs l).Perm l ∧
    List.Pairwise displayLE (sortedJobs l) ∧
    (∀ a b : JobResult, a.clicked = b.clicked →
      a.hiringProbability = b.hiringProbability →
      List.Sublist [a, b] l → List.Sublist [a, b] (sortedJobs l)) ∧
    sortedJobs [] = [] ∧ (∀ a : JobResult, sortedJobs [a] = [a]) := by
  refine ⟨?_, ?_, ?_, ?_, ?_⟩
  · exact List.mergeSort_perm l jobLE
  · exact (List.sorted_mergeSort jobLE_trans jobLE_total l).imp
      (fun h => jobLE_implies_displayLE _ _ h)
  · intro a b h1 h2 hsub
    refine List.sublist_mergeSort jobLE_trans jobLE_total ?_ hsub
    simp [List.pairwise_cons, jobLE_of_tie a b h1 h2]
  · simp [sortedJobs]
  · intro a
    simp [sortedJobs]

/-- Concrete unclicked record with hiring probability 90, matching the
example scenario of the specification. -/
def exA : JobResult :=
  { id := "a", company := "Acme", role := "Dev", country := "US",
    url := "https://jobs.acme.io/a", matchScore := 80, hiringProbability := 90,
    jd := "build things", clicked := false, lastInteractedAt := none,
    timestamp := 0, isValidated := none }

/-- Concrete unclicked record with hiring probability 95. -/
def exB : JobResult :=
  { id := "b", company := "Globex", role := "Dev", country := "DE",
    url := "https://jobs.globex.io/b", matchScore := 85, hiringProbability := 95,
    jd := "build more", clicked := false, lastInteractedAt := none,
    timestamp := 0, isValidated := none }

/-- Concrete clicked record with hiring probability 99. -/
def exC : JobResult :=
  { id := "c", company := "Initech", role := "Dev", country := "UK",
    url := "https://jobs.initech.io/c", matchScore := 99, hiringProbability := 99,
    jd := "build all", clicked := true, lastInteractedAt := some 3,
    timestamp := 0, isValidated := none }

/-- Witness for C1 at the example scenario of the specification: the
output order is b, a, c, and the theorem instance at this input. -/
theorem sortedJobs_spec_witness :
    sortedJobs [exA, exB, exC] = [exB, exA, exC] ∧
    (sortedJobs [exA, exB, exC]).Perm [exA, exB, exC] := by
  refine ⟨?_, (sortedJobs_spec [exA, exB, exC]).1⟩
  simp [sortedJobs, List.mergeSort, List.merge, jobLE, jobCompare, exA, exB, exC]

/-- Concrete stored session used by witnesses. -/
def exSession : SearchSession :=
  { id := "s1", timestamp := 10, countries := ["US", "DE"],
    targetTitles := ["Dev"], results := [exA, exB, exC] }

/-- Concrete profile holding one stored session, used by witnesses. -/
def exProfile : UserProfile :=
  { uid := "u1", email := some "u1@mail.io", displayName := some "U",
    photoURL := none, resumeText := some "resume", resumeUrl := none,
    resumeSourceType := some "paste", history := [exSession],
    suggestedCountries := some ["US"], targetTitles := some ["Dev"] }

/-- C2: markJobInteraction sets the matched record's clicked flag and
lastInteractedAt timestamp regardless of previous state.  First
conjunct: every record with the requested id inside a session with the
requested id is stored back with clicked true and timestamp now.
Second conjunct: after the call, every record with the requested id in
a session with the requested id reads clicked true and lastInteractedAt
now.  Third conjunct: a second call at a later time overrides the first
one completely, so the flag never reverts and the timestamp is the one
of the last call. -/
theorem markJobInteraction_spec (p : UserProfile) (sid rid : String) (t1 t2 : Nat) :
    (∀ s ∈ p.history, s.id = sid → ∀ j ∈ s.results, j.id = rid →
      ∃ s2 ∈ (markJobInteraction p sid rid t1).history, s2.id = sid ∧
        { j with clicked := true, lastInteractedAt := some t1 } ∈ s2.results) ∧
    (∀ s ∈ (markJobInteraction p sid rid t1).history, s.id = sid →
      ∀ j ∈ s.results, j.id = rid → j.clicked = true ∧ j.lastInteractedAt = some t1) ∧
    markJobInteraction (markJobInteraction p sid rid t1) sid rid t2 =
      markJobInteraction p sid rid t2 := by
  refine ⟨?_, ?_, ?_⟩
  · intro s hs hsid j hj hjid
    refine ⟨{ s with results := s.results.map fun job =>
        if job.id = rid then { job with clicked := true, lastInteractedAt := some t1 }
        else job }, ?_, hsid, ?_⟩
    · simp only [markJobInteraction, List.mem_map]
      exact ⟨s, hs, by simp [hsid]⟩
    · simp only [List.mem_map]
      exact ⟨j, hj, by simp [hjid]⟩
  · intro s hs hsid j hj hjid
    simp only [markJobInteraction, List.mem_map] at hs
    obtain ⟨s0, hs0, rfl⟩ := hs
    by_cases h : s0.id = sid
    · simp only [if_pos h] at hj
      simp only [List.mem_map] at hj
      obtain ⟨j0, hj0, rfl⟩ := hj
      by_cases h2 : j0.id = rid
      · simp [h2]
      · simp only [if_neg h2] at hjid
        exact absurd hjid h2
    · simp only [if_neg h] at hsid
      exact absurd hsid h
  · simp only [markJobInteraction, List.map_map]
    refine congrArg (fun h => { p with history := h }) ?_
    refine List.map_congr_left ?_
    intro s _
    simp only [Function.comp_apply]
    by_cases h : s.id = sid
    · simp only [if_pos h]
      refine congrArg (fun r => { s with results := r }) ?_
      rw [List.map_map]
      refine List.map_congr_left ?_
      intro j _
      simp only [Function.comp_apply]
      by_cases h2 : j.id = rid
      · simp [h2]
      · simp [h2]
    · simp [h]

/-- Witness for C2: the theorem applied at the concrete profile, with
the concrete double interaction evaluated. -/
theorem markJobInteraction_spec_witness :
    (markJobInteraction (markJobInteraction exProfile "s1" "a" 1000) "s1" "a" 2000 =
      markJobInteraction exProfile "s1" "a" 2000) ∧
    (markJobInteraction exProfile "s1" "a" 2000).history.map
        (fun s => s.results.map fun j => (j.id, j.clicked, j.lastInteractedAt)) =
      [[("a", true, some 2000), ("b", false, none), ("c", true, some 3)]] :=
  ⟨(markJobInteraction_spec exProfile "s1" "a" 1000 2000).2.2, by decide⟩

/-- C3 counterexample: markJobInteraction in src/App.tsx returns no
error value at all (its embedding returns only the profile, because the
source returns void and only calls setProfile), and at a result id
absent from the stored session it leaves the profile unchanged: a
silent no-op, not a NotFound signal. -/
theorem markJobInteraction_missing_cex :
    markJobInteraction exProfile "s1" "missing-id" 1000 = exProfile ∧
    markJobInteraction exProfile "missing-session" "a" 1000 = exProfile := by
  constructor <;> decide

/-- C3 amended: when no session of the profile carries the requested
session id, or every session that does carries no result with the
requested result id, markJobInteraction silently returns the profile
unchanged; the operation has no failure channel. -/
theorem markJobInteraction_missing_noop (p : UserProfile) (sid rid : String) (t : Nat)
    (h : ∀ s ∈ p.history, s.id = sid → ∀ j ∈ s.results, j.id ≠ rid) :
    markJobInteraction p sid rid t = p := by
  have hmap : (p.history.map fun session =>
      if session.id = sid then
        { session with
          results := session.results.map fun job =>
            if job.id = rid then
              { job with clicked := true, lastInteractedAt := some t }
            else job }
      else session) = p.history := by
    have hpt : ∀ s ∈ p.history, (if s.id = sid then
        { s with
          results := s.results.map fun job =>
            if job.id = rid then
              { job with clicked := true, lastInteractedAt := some t }
            else job }
      else s) = s := by
      intro s hs
      by_cases hid : s.id = sid
      · simp only [if_pos hid]
        have hres : (s.results.map fun job =>
            if job.id = rid then
              { job with clicked := true, lastInteractedAt := some t }
            else job) = s.results := by
          have : ∀ j ∈ s.results, (if j.id = rid then
              ({ j with clicked := true, lastInteractedAt := some t } : JobResult)
            else j) = j := by
            intro j hj
            simp [h s hs hid j hj]
          calc (s.results.map fun job => if job.id = rid then
                  { job with clicked := true, lastInteractedAt := some t } else job)
              = s.results.map id := List.map_congr_left this
            _ = s.results := List.map_id s.results
        simp [hres]
      · simp [hid]
    calc (p.history.map fun session => if session.id = sid then
            { session with
              results := session.results.map fun job =>
                if job.id = rid then
                  { job with clicked := true, lastInteractedAt := some t }
                else job }
          else session)
        = p.history.map id := List.map_congr_left hpt
      _ = p.history := List.map_id p.history
  simp only [markJobInteraction, hmap]

/-- Witness for C3's amended statement: the no-op theorem applied at a
concrete profile and a result id that no stored session contains. -/
theorem markJobInteraction_missing_noop_witness :
    markJobInteraction exProfile "s1" "zzz" 42 = exProfile :=
  markJobInteraction_missing_noop exProfile "s1" "zzz" 42 (by decide)

/-- Structural substring test on character lists, the embedding of
JavaScript String.prototype.includes used by validateJobUrl. -/
def containsSub : List Char → List Char → Bool
  | s, pat =>
    match s with
    | [] => pat.isEmpty
    | _ :: rest => pat.isPrefixOf s || containsSub rest pat

/-- Embedding of validateJobUrl in src/services/geminiService.ts: a url
is rejected when it is empty (falsy), contains the substring
example.com, or has length below ten; otherwise it is accepted. The
half-second setTimeout of the source has no observable effect on the
returned value and is not modelled. -/
def validateJobUrl (url : String) : Bool :=
  !(url == "" || containsSub url.data "example.com".data || decide (url.length < 10))

/-- Embedding of the validation loop of handleSearch in
src/components/Dashboard.tsx: jobs whose url fails validateJobUrl are
dropped, each kept job is stored with isValidated set to true, and the
relative order of the kept jobs is the discovery order. -/
def validatedResults (results : List JobResult) : List JobResult :=
  (results.filter fun job => validateJobUrl job.url).map
    fun job => { job with isValidated := some true }

/-- Embedding of the session construction of handleSearch in
src/components/Dashboard.tsx: the id is the string session- followed by
the Date.now reading, the timestamp is that reading, the parameter
lists are stored as passed, and the results are the validated ones. -/
def handleSearchSession (now : Nat) (selectedCountries selectedTitles : List String)
    (results : List JobResult) : SearchSession :=
  { id := "session-" ++ toString now, timestamp := now,
    countries := selectedCountries, targetTitles := selectedTitles,
    results := validatedResults results }

/-- Concrete discovery record whose url fails validation. -/
def jBad : JobResult :=
  { id := "x", company := "C", role := "R", country := "US", url := "bad",
    matchScore := 50, hiringProbability := 50, jd := "d", clicked := false,
    lastInteractedAt := none, timestamp := 0, isValidated := none }

/-- C4 counterexample: a discovery output consisting of one record with
url bad is not stored verbatim; handleSearch drops it during url
validation, so the stored results are empty while the discovery results
are not, and even a record that is kept is stored with its isValidated
field rewritten to true rather than as given. -/
theorem handleSearch_results_cex :
    (handleSearchSession 0 [] [] [jBad]).results = [] ∧ [jBad] ≠ ([] : List JobResult) ∧
    (handleSearchSession 0 [] [] [exA]).results ≠ [exA] := by
  refine ⟨?_, ?_, ?_⟩ <;> decide

/-- C4 amended: the stored results of a session are exactly the
discovery records whose url passes validateJobUrl, in their original
relative order (a sublist of the marked discovery sequence), each
stored with isValidated rewritten to true; every url-valid discovery
record is stored and the number of stored records is the number of
url-valid ones. -/
theorem handleSearch_results_spec (now : Nat) (cs tts : List String)
    (rs : List JobResult) :
    List.Sublist (handleSearchSession now cs tts rs).results
        (rs.map fun j => { j with isValidated := some true }) ∧
    (∀ j ∈ (handleSearchSession now cs tts rs).results,
      validateJobUrl j.url = true ∧ j.isValidated = some true) ∧
    (∀ j ∈ rs, validateJobUrl j.url = true →
      { j with isValidated := some true } ∈ (handleSearchSession now cs tts rs).results) ∧
    (handleSearchSession now cs tts rs).results.length =
      (rs.filter fun j => validateJobUrl j.url).length := by
  refine ⟨?_, ?_, ?_, ?_⟩
  · exact List.Sublist.map _ (List.filter_sublist rs)
  · intro j hj
    simp only [handleSearchSession, validatedResults, List.mem_map, List.mem_filter] at hj
    obtain ⟨j0, ⟨_, hval⟩, rfl⟩ := hj
    exact ⟨hval, rfl⟩
  · intro j hj hval
    simp only [handleSearchSession, validatedResults, List.mem_map, List.mem_filter]
    exact ⟨j, ⟨hj, hval⟩, rfl⟩
  · simp [handleSearchSession, validatedResults]

/-- Witness for C4's amended statement at a concrete discovery output
holding one valid and one invalid record. -/
theorem handleSearch_results_spec_witness :
    List.Sublist (handleSearchSession 5 ["US"] ["Dev"] [exA, jBad]).results
        ([exA, jBad].map fun j => { j with isValidated := some true }) ∧
    (handleSearchSession 5 ["US"] ["Dev"] [exA, jBad]).results =
      [{ exA with isValidated := some true }] :=
  ⟨(handleSearch_results_spec 5 ["US"] ["Dev"] [exA, jBad]).1, by decide⟩

/-- Heap of JavaScript array objects holding strategic parameter lists;
a reference is an index into the heap. Claim C5 concerns aliasing
between the caller's arrays and the stored session, so the parameter
fields of the session construction are embedded with explicit
references instead of values. -/
structure ParamHeap where
  arrays : List (List String)
  deriving Repr, DecidableEq

/-- Dereference an array object. -/
def readRef (h : ParamHeap) (r : Nat) : List String :=
  h.arrays.getD r []

/-- In-place mutation of the array object behind reference r, the
effect of JavaScript push or element assignment on the original
array. -/
def writeRef (h : ParamHeap) (r : Nat) (v : List String) : ParamHeap :=
  { arrays := h.arrays.set r v }

/-- A session as handleSearch builds it, seen at the reference level:
its parameter fields hold array references. -/
structure SessionRefs where
  id : String
  timestamp : Nat
  countriesRef : Nat
  targetTitlesRef : Nat
  deriving Repr, DecidableEq

/-- Embedding of the parameter fields of the session construction in
handleSearch (src/components/Dashboard.tsx): the source lines
countries colon selectedCountries and targetTitles colon selectedTitles
store the array references themselves; no element-wise copy appears in
the source, so the constructor receives and keeps the caller's
references unchanged. -/
def handleSearchSessionRefs (now : Nat) (cRef tRef : Nat) : SessionRefs :=
  { id := "session-" ++ toString now, timestamp := now,
    countriesRef := cRef, targetTitlesRef := tRef }

/-- C5 counterexample: with one array object holding the list US, the
session built by handleSearch reads back US, but after an in-place
mutation of the caller's array object (the same object the profile's
strategic parameter field holds, per the effect hook of Dashboard that
assigns profile.suggestedCountries the identical reference), the
session's parameters read back US, DE: a later mutation of the
caller's list changed session.parameters, because the session holds a
live reference and not a copy. -/
theorem session_params_alias_cex :
    readRef { arrays := [["US"]] } (handleSearchSessionRefs 0 0 0).countriesRef = ["US"] ∧
    readRef (writeRef { arrays := [["US"]] } 0 ["US", "DE"])
        (handleSearchSessionRefs 0 0 0).countriesRef = ["US", "DE"] ∧
    (["US", "DE"] : List String) ≠ ["US"] := by
  refine ⟨?_, ?_, ?_⟩ <;> decide

/-- C5 amended: the session stores the caller's references unchanged,
so an in-place mutation through the caller's reference is visible when
reading the session's parameters, while a write to any other reference
(such as a freshly allocated replacement array, which is what the React
state setters produce) leaves the session's view unchanged. -/
theorem session_params_alias (h : ParamHeap) (now cRef tRef : Nat) (v : List String)
    (hr : cRef < h.arrays.length) :
    (handleSearchSessionRefs now cRef tRef).countriesRef = cRef ∧
    (handleSearchSessionRefs now cRef tRef).targetTitlesRef = tRef ∧
    readRef (writeRef h cRef v) (handleSearchSessionRefs now cRef tRef).countriesRef = v ∧
    (∀ r2, r2 ≠ cRef → ∀ w,
      readRef (writeRef h r2 w) (handleSearchSessionRefs now cRef tRef).countriesRef =
        readRef h cRef) := by
  refine ⟨rfl, rfl, ?_, ?_⟩
  · simp [readRef, writeRef, handleSearchSessionRefs, hr]
  · intro r2 hne w
    simp [readRef, writeRef, handleSearchSessionRefs, List.getElem?_set_ne hne]

/-- Witness for C5's amended statement at a one-object heap. -/
theorem session_params_alias_witness :
    readRef (writeRef { arrays := [["US"]] } 0 ["US", "DE"])
        (handleSearchSessionRefs 7 0 0).countriesRef = ["US", "DE"] :=
  (session_params_alias { arrays := [["US"]] } 7 0 0 ["US", "DE"] (by decide)).2.2.1

/-- Second concrete session for history witnesses. -/
def exSession2 : SearchSession :=
  { id := "s2", timestamp := 20, countries := ["UK"], targetTitles := ["QA"],
    results := [exB] }

/-- Third concrete session for history witnesses. -/
def exSession3 : SearchSession :=
  { id := "s3", timestamp := 30, countries := ["FR"], targetTitles := ["Ops"],
    results := [] }

/-- C6: updateHistory prepends; two appends of S1 then S2 give the
history S2, S1 followed by the old history in order, and every
previously stored session is still present unchanged. -/
theorem updateHistory_spec (p : UserProfile) (s1 s2 : SearchSession) :
    (updateHistory (updateHistory p s1) s2).history = s2 :: s1 :: p.history ∧
    (updateHistory p s1).history = s1 :: p.history ∧
    (∀ s ∈ p.history, s ∈ (updateHistory (updateHistory p s1) s2).history) := by
  refine ⟨rfl, rfl, ?_⟩
  intro s hs
  simp [updateHistory, hs]

/-- Witness for C6 at the concrete profile and sessions. -/
theorem updateHistory_spec_witness :
    (updateHistory (updateHistory exProfile exSession2) exSession3).history =
      exSession3 :: exSession2 :: exProfile.history :=
  (updateHistory_spec exProfile exSession2 exSession3).1

/-- The profile store of src/unnamed/part_000: a JavaScript object
keyed by uid and mirrored through localStorage as JSON. The object is
modelled as a map from uid strings to optional profiles; the JSON
round-trip through getDB preserves every field of this data model and
is the identity here. -/
abbrev Store := String → Option UserProfile

/-- Embedding of storage.saveProfile: the object gains or overwrites
the binding of profile.uid. -/
def saveProfile (db : Store) (p : UserProfile) : Store :=
  fun uid => if uid = p.uid then some p else db uid

/-- Embedding of storage.getProfile: db at uid, or null when absent
(null is none). -/
def getProfile (db : Store) (uid : String) : Option UserProfile :=
  db uid

/-- The store before any save: getDB parses the absent key to the
empty object. -/
def emptyStore : Store := fun _ => none

lemma getProfile_foldl_none (ps : List UserProfile) (uid : String) :
    ∀ db : Store, (∀ r ∈ ps, r.uid ≠ uid) → getProfile db uid = none →
      getProfile (ps.foldl saveProfile db) uid = none := by
  induction ps with
  | nil => intro db _ h0; exact h0
  | cons p ps ih =>
    intro db h h0
    refine ih _ (fun r hr => h r (List.mem_cons_of_mem _ hr)) ?_
    simp only [getProfile, saveProfile] at h0 ⊢
    rw [if_neg (fun he => h p (List.mem_cons_self _ _) he.symm)]
    exact h0

/-- C8: loading the uid just saved returns the saved profile, a second
save under the same uid fully overwrites the first (last write wins),
and loading a uid that no sequence of saves ever touched returns none,
the NotFound signal, instead of failing. -/
theorem storage_spec (db : Store) (p q : UserProfile) (uid : String)
    (hq : q.uid = p.uid) :
    getProfile (saveProfile db p) p.uid = some p ∧
    getProfile (saveProfile (saveProfile db p) q) p.uid = some q ∧
    (∀ ps : List UserProfile, (∀ r ∈ ps, r.uid ≠ uid) →
      getProfile (ps.foldl saveProfile emptyStore) uid = none) := by
  refine ⟨?_, ?_, ?_⟩
  · simp [getProfile, saveProfile]
  · simp [getProfile, saveProfile, hq]
  · intro ps h
    exact getProfile_foldl_none ps uid emptyStore h rfl

/-- Second concrete profile, same uid as exProfile. -/
def exProfile2 : UserProfile :=
  { exProfile with displayName := some "V", history := [] }

/-- Witness for C8: round-trip, overwrite and absent-key load at
concrete profiles. -/
theorem storage_spec_witness :
    getProfile (saveProfile emptyStore exProfile) "u1" = some exProfile ∧
    getProfile (saveProfile (saveProfile emptyStore exProfile) exProfile2) "u1" =
      some exProfile2 ∧
    getProfile ([exProfile, exProfile2].foldl saveProfile emptyStore) "ghost" = none := by
  obtain ⟨h1, h2, h3⟩ := storage_spec emptyStore exProfile exProfile2 "ghost" rfl
  exact ⟨h1, h2, h3 [exProfile, exProfile2] (by decide)⟩

/-- Equality of all fields of a result record except clicked and
lastInteractedAt: id, the descriptive fields, both scores, the
discovery timestamp and the validation mark. -/
def sameJobStatic (j2 j : JobResult) : Prop :=
  j2.id = j.id ∧ j2.company = j.company ∧ j2.role = j.role ∧
  j2.country = j.country ∧ j2.url = j.url ∧ j2.matchScore = j.matchScore ∧
  j2.hiringProbability = j.hiringProbability ∧ j2.jd = j.jd ∧
  j2.timestamp = j.timestamp ∧ j2.isValidated = j.isValidated

lemma sameJobStatic_self (j : JobResult) : sameJobStatic j j :=
  ⟨rfl, rfl, rfl, rfl, rfl, rfl, rfl, rfl, rfl, rfl⟩

/-- Frame relation between a session after and before an interaction
call with ids sid and rid: the session's own fields are unchanged, a
session whose id differs from sid is untouched as a whole, result
count and positions are preserved, every result keeps all fields other
than clicked and lastInteractedAt, and a result whose id differs from
rid is untouched as a whole. -/
def sameSessionFrame (sid rid : String) (s2 s : SearchSession) : Prop :=
  s2.id = s.id ∧ s2.timestamp = s.timestamp ∧ s2.countries = s.countries ∧
  s2.targetTitles = s.targetTitles ∧ s2.results.length = s.results.length ∧
  (s.id ≠ sid → s2 = s) ∧
  ∀ k (hk : k < s.results.length) (hk2 : k < s2.results.length),
    sameJobStatic (s2.results.get ⟨k, hk2⟩) (s.results.get ⟨k, hk⟩) ∧
    ((s.results.get ⟨k, hk⟩).id ≠ rid →
      s2.results.get ⟨k, hk2⟩ = s.results.get ⟨k, hk⟩)

lemma sameSessionFrame_self (sid rid : String) (s : SearchSession) :
    sameSessionFrame sid rid s s :=
  ⟨rfl, rfl, rfl, rfl, rfl, fun _ => rfl,
    fun _ _ _ => ⟨sameJobStatic_self _, fun _ => rfl⟩⟩

/-- Equality of all profile fields other than history. -/
def sameProfileMeta (q p : UserProfile) : Prop :=
  q.uid = p.uid ∧ q.email = p.email ∧ q.displayName = p.displayName ∧
  q.photoURL = p.photoURL ∧ q.resumeText = p.resumeText ∧
  q.resumeUrl = p.resumeUrl ∧ q.resumeSourceType = p.resumeSourceType ∧
  q.suggestedCountries = p.suggestedCountries ∧ q.targetTitles = p.targetTitles

/-- C7: an interaction call leaves everything unchanged except the
clicked and lastInteractedAt fields of results whose session and own
ids match: every non-history profile field is equal, the history keeps
its length, and at every position the stored session stands in the
frame relation to the old one. -/
theorem markJobInteraction_frame (p : UserProfile) (sid rid : String) (t : Nat) :
    sameProfileMeta (markJobInteraction p sid rid t) p ∧
    (markJobInteraction p sid rid t).history.length = p.history.length ∧
    ∀ i (hi : i < p.history.length)
      (hi2 : i < (markJobInteraction p sid rid t).history.length),
      sameSessionFrame sid rid
        ((markJobInteraction p sid rid t).history.get ⟨i, hi2⟩)
        (p.history.get ⟨i, hi⟩) := by
  refine ⟨⟨rfl, rfl, rfl, rfl, rfl, rfl, rfl, rfl, rfl⟩, by
    simp [markJobInteraction], ?_⟩
  intro i hi hi2
  have hget : (markJobInteraction p sid rid t).history.get ⟨i, hi2⟩ =
      (if (p.history.get ⟨i, hi⟩).id = sid then
        { p.history.get ⟨i, hi⟩ with
          results := (p.history.get ⟨i, hi⟩).results.map fun job =>
            if job.id = rid then
              { job with clicked := true, lastInteractedAt := some t }
            else job }
      else p.history.get ⟨i, hi⟩) := by
    simp [markJobInteraction, List.get_eq_getElem, List.getElem_map]
  rw [hget]
  by_cases hs : (p.history.get ⟨i, hi⟩).id = sid
  · rw [if_pos hs]
    refine ⟨rfl, rfl, rfl, rfl, by simp, fun hne => absurd hs hne, ?_⟩
    intro k hk hk2
    have hjget : ({ p.history.get ⟨i, hi⟩ with
        results := (p.history.get ⟨i, hi⟩).results.map fun job =>
          if job.id = rid then
            ({ job with clicked := true, lastInteractedAt := some t } : JobResult)
          else job } : SearchSession).results.get ⟨k, hk2⟩ =
        (if ((p.history.get ⟨i, hi⟩).results.get ⟨k, hk⟩).id = rid then
          { (p.history.get ⟨i, hi⟩).results.get ⟨k, hk⟩ with
            clicked := true, lastInteractedAt := some t }
        else (p.history.get ⟨i, hi⟩).results.get ⟨k, hk⟩) := by
      simp [List.get_eq_getElem, List.getElem_map]
    rw [hjget]
    by_cases hj : ((p.history.get ⟨i, hi⟩).results.get ⟨k, hk⟩).id = rid
    · rw [if_pos hj]
      exact ⟨⟨rfl, rfl, rfl, rfl, rfl, rfl, rfl, rfl, rfl, rfl⟩,
        fun hne => absurd hj hne⟩
    · rw [if_neg hj]
      exact ⟨sameJobStatic_self _, fun _ => rfl⟩
  · rw [if_neg hs]
    exact sameSessionFrame_self sid rid _

/-- Witness for C7: the frame relation read off at the concrete
profile after an interaction with the record b of session s1. -/
theorem markJobInteraction_frame_witness :
    sameProfileMeta (markJobInteraction exProfile "s1" "b" 99) exProfile ∧
    sameSessionFrame "s1" "b"
      ((markJobInteraction exProfile "s1" "b" 99).history.get ⟨0, by decide⟩)
      (exProfile.history.get ⟨0, by decide⟩) :=
  ⟨(markJobInteraction_frame exProfile "s1" "b" 99).1,
    (markJobInteraction_frame exProfile "s1" "b" 99).2.2 0 (by decide) (by decide)⟩

/-- Shape of one object of the discovery response, following the
responseSchema of discoverJobs in src/services/geminiService.ts; the
two scores are declared integers there but no range is enforced. -/
structure RawJob where
  company : String
  role : String
  country : String
  url : String
  jd : String
  matchScore : Int
  hiringProbability : Int
  deriving Repr, DecidableEq

/-- The per-element record construction of discoverJobs: the parsed
object is spread into a JobResult and given an id built from the
Date.now reading and the index, clicked false and the discovery
timestamp; no field is range-checked or clamped. -/
def mkJobResult (r : RawJob) (jobId : String) (now : Nat) : JobResult :=
  { id := jobId, company := r.company, role := r.role, country := r.country,
    url := r.url, matchScore := r.matchScore,
    hiringProbability := r.hiringProbability, jd := r.jd, clicked := false,
    lastInteractedAt := none, timestamp := now, isValidated := none }

/-- The indexed map of discoverJobs over the parsed response, carrying
the running index that appears in the generated id. -/
def discoverJobsGo (now : Nat) : Nat → List RawJob → List JobResult
  | _, [] => []
  | i, r :: rs =>
    mkJobResult r ("job-" ++ toString now ++ "-" ++ toString i) now ::
      discoverJobsGo now (i + 1) rs

/-- Embedding of the result mapping of discoverJobs in
src/services/geminiService.ts. -/
def discoverJobs (rs : List RawJob) (now : Nat) : List JobResult :=
  discoverJobsGo now 0 rs

lemma discoverJobsGo_mem (now : Nat) (rs : List RawJob) :
    ∀ i j, j ∈ discoverJobsGo now i rs →
      ∃ r ∈ rs, ∃ s : String, j = mkJobResult r s now := by
  induction rs with
  | nil => intro i j hj; simp [discoverJobsGo] at hj
  | cons r rs ih =>
    intro i j hj
    simp only [discoverJobsGo, List.mem_cons] at hj
    rcases hj with rfl | hj
    · exact ⟨r, List.mem_cons_self _ _, _, rfl⟩
    · obtain ⟨r0, hr0, s, hs⟩ := ih (i + 1) j hj
      exact ⟨r0, List.mem_cons_of_mem _ hr0, s, hs⟩

lemma discoverJobsGo_mem_of (now : Nat) (rs : List RawJob) :
    ∀ i, ∀ r ∈ rs, ∃ s : String, mkJobResult r s now ∈ discoverJobsGo now i rs := by
  induction rs with
  | nil => intro i r hr; simp at hr
  | cons r0 rs ih =>
    intro i r hr
    rcases List.mem_cons.mp hr with rfl | hr
    · exact ⟨"job-" ++ toString now ++ "-" ++ toString i, by simp [discoverJobsGo]⟩
    · obtain ⟨s, hs⟩ := ih (i + 1) r hr
      exact ⟨s, by simp [discoverJobsGo, hs]⟩

/-- Concrete discovery record with both scores outside the range 0 to
100 and a url that passes validation. -/
def rawBig : RawJob :=
  { company := "C", role := "R", country := "US",
    url := "https://careers.acme.io/1", jd := "d", matchScore := 150,
    hiringProbability := -7 }

/-- C9 counterexample: the discovery record rawBig carries matchScore
150 and hiringProbability -7; discoverJobs maps it through unchanged,
handleSearch stores it (its url passes validation), no ValidationError
exists anywhere on this path (neither function has a failure channel),
and the stored session holds a record with both scores outside 0 to
100. -/
theorem score_validation_cex :
    ((handleSearchSession 7 [] [] (discoverJobs [rawBig] 7)).results.map
      fun j => (j.matchScore, j.hiringProbability)) = [(150, -7)] ∧
    ¬ (∀ j ∈ (handleSearchSession 7 [] [] (discoverJobs [rawBig] 7)).results,
        0 ≤ j.matchScore ∧ j.matchScore ≤ 100 ∧ 0 ≤ j.hiringProbability ∧
        j.hiringProbability ≤ 100) := by
  constructor <;> decide

/-- C9 amended: the ingestion boundary performs no score validation:
every stored record carries exactly the matchScore and
hiringProbability of some discovery record whose url passed validation
(scores are never clamped, rejected or rewritten), and every discovery
record with a valid url is stored with its scores verbatim, whatever
their range; url validation is the only filter. -/
theorem scores_pass_through (now now2 : Nat) (cs tts : List String) (rs : List RawJob) :
    (∀ j ∈ (handleSearchSession now cs tts (discoverJobs rs now2)).results,
      ∃ r ∈ rs, j.matchScore = r.matchScore ∧
        j.hiringProbability = r.hiringProbability ∧ j.url = r.url ∧
        validateJobUrl r.url = true) ∧
    (∀ r ∈ rs, validateJobUrl r.url = true →
      ∃ j ∈ (handleSearchSession now cs tts (discoverJobs rs now2)).results,
        j.matchScore = r.matchScore ∧ j.hiringProbability = r.hiringProbability) := by
  constructor
  · intro j hj
    simp only [handleSearchSession, validatedResults, List.mem_map,
      List.mem_filter] at hj
    obtain ⟨j0, ⟨hj0, hval⟩, rfl⟩ := hj
    obtain ⟨r, hr, s, rfl⟩ := discoverJobsGo_mem now2 rs 0 j0 hj0
    exact ⟨r, hr, rfl, rfl, rfl, hval⟩
  · intro r hr hval
    obtain ⟨s, hs⟩ := discoverJobsGo_mem_of now2 rs 0 r hr
    refine ⟨{ mkJobResult r s now2 with isValidated := some true }, ?_, rfl, rfl⟩
    simp only [handleSearchSession, validatedResults, List.mem_map, List.mem_filter]
    exact ⟨mkJobResult r s now2, ⟨hs, hval⟩, rfl⟩

/-- Witness for C9's amended statement: the out-of-range scores of
rawBig are stored verbatim, and the theorem instance at that input. -/
theorem scores_pass_through_witness :
    ((handleSearchSession 7 [] [] (discoverJobs [rawBig] 7)).results.map
        fun j => (j.matchScore, j.hiringProbability)) = [(150, -7)] ∧
    (∃ j ∈ (handleSearchSession 7 [] [] (discoverJobs [rawBig] 7)).results,
      j.matchScore = rawBig.matchScore ∧
      j.hiringProbability = rawBig.hiringProbability) :=
  ⟨by decide, (scores_pass_through 7 7 [] [] [rawBig]).2 rawBig (by decide) (by decide)⟩

/-- The record-level invariant of claim C10: lastInteractedAt is set
exactly when the record has been interacted with. -/
def recordInv (j : JobResult) : Prop :=
  j.lastInteractedAt ≠ none ↔ j.clicked = true

/-- A profile satisfies the invariant when every record of every stored
session does. -/
def profileInv (p : UserProfile) : Prop :=
  ∀ s ∈ p.history, ∀ j ∈ s.results, recordInv j

/-- Profiles reachable through the operations of the application: a
fresh profile has empty history (handleGoogleLogin in src/App.tsx);
onboarding completion, parameter edits and login refreshes replace only
non-history fields; handleSearch appends a session built from a
discovery response; a click or copy action records an interaction. -/
inductive Reachable : UserProfile → Prop
  | login (p : UserProfile) (h : p.history = []) : Reachable p
  | editMeta (p q : UserProfile) (hp : Reachable p) (h : q.history = p.history) :
      Reachable q
  | search (p : UserProfile) (now now2 : Nat) (cs tts : List String)
      (rs : List RawJob) (hp : Reachable p) :
      Reachable (updateHistory p (handleSearchSession now cs tts (discoverJobs rs now2)))
  | interact (p : UserProfile) (sid rid : String) (t : Nat) (hp : Reachable p) :
      Reachable (markJobInteraction p sid rid t)

lemma discoverJobsGo_fresh (now : Nat) (rs : List RawJob) :
    ∀ i j, j ∈ discoverJobsGo now i rs →
      j.clicked = false ∧ j.lastInteractedAt = none := by
  induction rs with
  | nil => intro i j hj; simp [discoverJobsGo] at hj
  | cons r rs ih =>
    intro i j hj
    simp only [discoverJobsGo, List.mem_cons] at hj
    rcases hj with rfl | hj
    · exact ⟨rfl, rfl⟩
    · exact ih (i + 1) j hj

/-- C10: every result record reachable through the operations of the
application satisfies the invariant that lastInteractedAt is set if and
only if clicked is true: discovery creates records with clicked false
and no timestamp, the only mutation (markJobInteraction) sets clicked
true and lastInteractedAt together, and no reachable operation clears
the timestamp while clicked stays true. -/
theorem resultRecord_inv (p : UserProfile) (hp : Reachable p) : profileInv p := by
  induction hp with
  | login p h =>
    intro s hs
    rw [h] at hs
    simp at hs
  | editMeta p q hp h ih =>
    intro s hs j hj
    rw [h] at hs
    exact ih s hs j hj
  | search p now now2 cs tts rs hp ih =>
    intro s hs j hj
    simp only [updateHistory, List.mem_cons] at hs
    rcases hs with rfl | hs
    · simp only [handleSearchSession, validatedResults, List.mem_map,
        List.mem_filter] at hj
      obtain ⟨j0, ⟨hj0, _⟩, rfl⟩ := hj
      obtain ⟨hc, hl⟩ := discoverJobsGo_fresh now2 rs 0 j0 hj0
      simp [recordInv, hc, hl]
    · exact ih s hs j hj
  | interact p sid rid t hp ih =>
    intro s hs j hj
    simp only [markJobInteraction, List.mem_map] at hs
    obtain ⟨s0, hs0, rfl⟩ := hs
    by_cases h : s0.id = sid
    · simp only [if_pos h, List.mem_map] at hj
      obtain ⟨j0, hj0, rfl⟩ := hj
      by_cases h2 : j0.id = rid
      · simp [h2, recordInv]
      · simp only [if_neg h2]
        exact ih s0 hs0 j0 hj0
    · simp only [if_neg h] at hj
      exact ih s0 hs0 j hj

/-- Witness for C10: the invariant read off on a concrete reachable
profile: login, one search storing one discovery record, then one
interaction on the stored record. -/
theorem resultRecord_inv_witness :
    profileInv (markJobInteraction
      (updateHistory exProfile2 (handleSearchSession 7 [] [] (discoverJobs [rawBig] 7)))
      "session-7" "job-7-0" 9) :=
  resultRecord_inv _ (Reachable.interact _ "session-7" "job-7-0" 9
    (Reachable.search exProfile2 7 7 [] [] [rawBig] (Reachable.login exProfile2 rfl)))
